/-
  Verification of the market-data pipeline of the eliza-plugins repository.

  The development shallowly embeds, per component:
  * `MarketDb` — the SQLite market-database adapter
    (adapter-marketdatabase/src/index.ts together with schema.sql):
    `storeMarketData`, the transaction wrapper, and the two analysis
    queries of `getMarketAnalysis`.
  * `CoinGeckoSync` — the scheduler of
    plugin-coingecko/src/services/marketDataService.ts:
    `updateMarketData` (bounded retry) and `checkAndUpdate` (tick gating).
  * `BaseMarketFetch` — the paginated fetch loop of
    plugin-base-market/src/services/marketDataService.ts.
  * `BaseMarketMovers` — the notable-movers query of the same service.
  * `TokenInfoSvc` — the enrichment drain loop of TokenInfoService
    (processBulkTokenInfo / handleRateLimit / fetchTokenInfo).

  Modelling conventions: SQL REAL columns become `ℚ`; ISO-8601 timestamp
  strings become `ℤ` instants (ISO strings are order-isomorphic to the
  times they denote, and every query compares them only by order);
  nullable columns become `Option`; better-sqlite3's
  `db.transaction(fn)` becomes an `Except`-valued run whose error case
  restores the pre-call state (BEGIN / COMMIT / ROLLBACK-on-throw).
-/
import Mathlib

namespace MarketDb

/-- A record handed to `MarketDatabaseAdapter.storeMarketData`
(the `MarketData` interface of adapter-marketdatabase/src/types.ts).
`timestamp = none` models a falsy `item.timestamp`, for which the code
substitutes `new Date().toISOString()`. -/
structure MarketData where
  id : String
  symbol : String
  name : String
  current_price : ℚ
  market_cap : ℚ
  total_volume : ℚ
  market_cap_rank : Option ℤ
  price_change_percentage_1h : Option ℚ
  price_change_percentage_24h : Option ℚ
  price_change_percentage_7d : Option ℚ
  price_change_percentage_14d : Option ℚ
  price_change_percentage_30d : Option ℚ
  timestamp : Option ℤ
  deriving DecidableEq, Repr

/-- A row of the `coins` table (id TEXT PRIMARY KEY, symbol, name). -/
structure Coin where
  id : String
  symbol : String
  name : String
  deriving DecidableEq, Repr

/-- A row of the `market_data` table of schema.sql.  The table has an
AUTOINCREMENT surrogate primary key and no UNIQUE constraint, so the row
itself carries no identity beyond its column values; the insert statement
never writes `price_change_percentage_200d` (left NULL) and leaves
`data_source` at its DEFAULT 'coingecko'. -/
structure MarketRow where
  coin_id : String
  current_price : ℚ
  market_cap : ℚ
  total_volume : ℚ
  market_cap_rank : Option ℤ
  price_change_percentage_1h : Option ℚ
  price_change_percentage_24h : Option ℚ
  price_change_percentage_7d : Option ℚ
  price_change_percentage_14d : Option ℚ
  price_change_percentage_30d : Option ℚ
  price_change_percentage_200d : Option ℚ
  timestamp : ℤ
  data_source : String
  deriving DecidableEq, Repr

/-- The tables of schema.sql touched by `storeMarketData` and
`getMarketAnalysis`: `coins`, `market_data`, and the
`coin_categories (coin_id, category_id)` junction table. -/
structure DBState where
  coins : List Coin
  market_data : List MarketRow
  coin_categories : List (String × String)
  deriving DecidableEq, Repr

/-- `INSERT OR IGNORE INTO coins (id, symbol, name)`: a no-op when a row
with the same primary key `id` exists, an append otherwise. -/
def insertCoin (item : MarketData) (st : DBState) : DBState :=
  if st.coins.any (fun c => c.id == item.id) then st
  else { st with coins := st.coins ++ [⟨item.id, item.symbol, item.name⟩] }

/-- The `market_data` row a *satisfied* run of the prepared
`insertMarketData` statement would write for `item`: one value per
listed column (the `coin_id` column carrying the asset identifier),
with `timestamp: item.timestamp || new Date().toISOString()`.  The run
issued by `storeMarketData` never binds the `@coin_id` parameter (see
`missingNamedParameter`), so in the source this row is the statement's
success semantics, never a state the method actually commits. -/
def marketRowOf (now : ℤ) (item : MarketData) : MarketRow :=
  { coin_id := item.id
    current_price := item.current_price
    market_cap := item.market_cap
    total_volume := item.total_volume
    market_cap_rank := item.market_cap_rank
    price_change_percentage_1h := item.price_change_percentage_1h
    price_change_percentage_24h := item.price_change_percentage_24h
    price_change_percentage_7d := item.price_change_percentage_7d
    price_change_percentage_14d := item.price_change_percentage_14d
    price_change_percentage_30d := item.price_change_percentage_30d
    price_change_percentage_200d := none
    timestamp := item.timestamp.getD now
    data_source := "coingecko" }

/-- The success semantics of the `INSERT INTO market_data (...)`
statement: a plain insert into a table whose primary key is
AUTOINCREMENT and which has no UNIQUE constraint, hence an append.
Whether a run reaches this success or throws is decided by the failure
oracle of `runInserts`; the oracle the source's call site realizes
(`actualInsertFailure`) always throws. -/
def insertMarketData (now : ℤ) (item : MarketData) (st : DBState) : DBState :=
  { st with market_data := st.market_data ++ [marketRowOf now item] }

/-- The body of the transaction of `storeMarketData`: for each item,
`insertCoin` then `insertMarketData`.  `fail` is the environment's
failure oracle — `stmt.run` throwing (constraint violation, I/O error)
at that item in that intermediate state. -/
def runInserts (fail : MarketData → DBState → Bool) (now : ℤ) :
    List MarketData → DBState → Except Unit DBState
  | [], st => .ok st
  | item :: rest, st =>
    if fail item st then .error ()
    else runInserts fail now rest (insertMarketData now item (insertCoin item st))

/-- The same batch applied without failures (the success path of the
transaction body). -/
def applyBatch (now : ℤ) (data : List MarketData) (st : DBState) : DBState :=
  data.foldl (fun s item => insertMarketData now item (insertCoin item s)) st

/-- `this.db.transaction(fn)(data)` in `storeMarketData`: better-sqlite3
wraps `fn` in BEGIN/COMMIT and, when `fn` throws, performs ROLLBACK and
rethrows — so on failure the caller observes the pre-call state together
with the raised error (`false` in the success flag). -/
def storeMarketDataTx (fail : MarketData → DBState → Bool) (now : ℤ)
    (data : List MarketData) (st : DBState) : DBState × Bool :=
  match runInserts fail now data st with
  | .ok st' => (st', true)
  | .error _ => (st, false)

end MarketDb
namespace MarketDb

theorem runInserts_ok_eq (fail : MarketData → DBState → Bool) (now : ℤ) :
    ∀ (data : List MarketData) (st st' : DBState),
      runInserts fail now data st = .ok st' → st' = applyBatch now data st := by
  intro data
  induction data with
  | nil =>
    intro st st' h
    simp only [runInserts, Except.ok.injEq] at h
    simp [applyBatch, h]
  | cons item rest ih =>
    intro st st' h
    by_cases hf : fail item st
    · simp [runInserts, hf] at h
    · simp only [runInserts, if_neg hf] at h
      simpa [applyBatch, List.foldl_cons] using ih _ _ h

/-- C6: each call to `storeMarketData` runs as one atomic transaction —
whatever the failure oracle does, the result is either the whole batch
applied with success reported, or the pre-call state unchanged with the
failure surfaced to the caller (and the transaction body having raised);
no partial subset of the batch is ever visible. -/
theorem storeMarketDataTx_atomic (fail : MarketData → DBState → Bool) (now : ℤ)
    (data : List MarketData) (st : DBState) :
    (storeMarketDataTx fail now data st = (st, false) ∧
      runInserts fail now data st = .error ()) ∨
    storeMarketDataTx fail now data st = (applyBatch now data st, true) := by
  cases hmatch : runInserts fail now data st with
  | ok st' =>
    right
    have := runInserts_ok_eq fail now data st st' hmatch
    simp [storeMarketDataTx, hmatch, this]
  | error e =>
    left
    cases e
    exact ⟨by simp [storeMarketDataTx, hmatch], rfl⟩

/-- The named parameters of the prepared `insertMarketData` statement:
the `@...` placeholders listed in `prepareStatements`. -/
def marketDataInsertParams : List String :=
  ["coin_id", "current_price", "market_cap", "total_volume",
   "market_cap_rank", "price_change_percentage_1h",
   "price_change_percentage_24h", "price_change_percentage_7d",
   "price_change_percentage_14d", "price_change_percentage_30d",
   "timestamp"]

/-- The keys of the object `storeMarketData` binds to that statement:
the spread `{...item, timestamp: ...}` of a `MarketData` value, i.e.
the interface's keys — among them `id`, never `coin_id` (contrast
`assignCategoryToToken`, which renames to `coin_id` explicitly). -/
def storeMarketDataBindKeys : List String :=
  ["id", "symbol", "name", "current_price", "market_cap", "total_volume",
   "market_cap_rank", "price_change_percentage_1h",
   "price_change_percentage_24h", "price_change_percentage_7d",
   "price_change_percentage_14d", "price_change_percentage_30d",
   "timestamp"]

/-- Whether the statement run throws better-sqlite3's
"Missing named parameter" error: some `@` parameter of the statement is
absent from the bound object's keys.  This depends only on the statement
and the interface, not on the item's field values — and it computes to
`true`, because `coin_id` is never bound.  (Were the absent parameter
bound as NULL instead, the `coin_id TEXT NOT NULL` column of schema.sql
would reject the row just the same.) -/
def missingNamedParameter : Bool :=
  marketDataInsertParams.any (fun p => !(storeMarketDataBindKeys.contains p))

/-- The failure oracle the source's `storeMarketData` call site
realizes: every `market_data` statement run throws before writing. -/
def actualInsertFailure : MarketData → DBState → Bool :=
  fun _ _ => missingNamedParameter

/-- `MarketDatabaseAdapter.storeMarketData` as the source behaves: the
transaction wrapper under the failure oracle its call site realizes. -/
def storeMarketData (now : ℤ) (data : List MarketData) (st : DBState) :
    DBState × Bool :=
  storeMarketDataTx actualInsertFailure now data st

/-- A concrete snapshot record (the C1 failing input is the batch
holding just this record). -/
def c1Item : MarketData :=
  { id := "base-token", symbol := "BT", name := "Base Token"
    current_price := 2, market_cap := 1000, total_volume := 500
    market_cap_rank := some 1
    price_change_percentage_1h := some 1
    price_change_percentage_24h := some 2
    price_change_percentage_7d := none
    price_change_percentage_14d := none
    price_change_percentage_30d := none
    timestamp := some 1700000000 }

/-- The empty store (all three tables empty). -/
def dbEmpty : DBState := ⟨[], [], []⟩

/-- C1: the claimed insert-or-ignore idempotency is the spec's intent,
but the code cannot exhibit it because `storeMarketData` never stores a
snapshot at all: the prepared statement requires the named parameter
`coin_id`, the bound object (the spread of a `MarketData` item) has
`id` and no `coin_id`, so the first `market_data` run of every
non-empty batch throws, the transaction rolls back, and each call
leaves the store unchanged while surfacing the failure.  At the failing
input `[c1Item]`, once or twice in succession, nothing is ingested. -/
theorem storeMarketData_missing_coin_id :
    missingNamedParameter = true ∧
    "coin_id" ∈ marketDataInsertParams ∧
    "coin_id" ∉ storeMarketDataBindKeys ∧
    (∀ (now : ℤ) (st : DBState) (item : MarketData) (rest : List MarketData),
      storeMarketData now (item :: rest) st = (st, false)) ∧
    storeMarketData 0 [c1Item] dbEmpty = (dbEmpty, false) ∧
    storeMarketData 0 [c1Item] (storeMarketData 0 [c1Item] dbEmpty).1 =
      (dbEmpty, false) := by
  refine ⟨by decide, by decide, by decide, ?_, rfl, rfl⟩
  intro now st item rest
  have hfail : actualInsertFailure item st = true := rfl
  simp [storeMarketData, storeMarketDataTx, runInserts, hfail]

end MarketDb
namespace MarketDb

/-- The `timeframe` parameter of `getMarketAnalysis`
('24h' | '7d' | '30d'). -/
inductive MarketTimeframe
  | h24
  | d7
  | d30
  deriving DecidableEq, Repr

/-- `MarketAnalysisParams` of adapter-marketdatabase/src/types.ts. -/
structure MarketAnalysisParams where
  timeframe : MarketTimeframe
  category : Option String
  limit : Option Nat
  deriving DecidableEq, Repr

/-- An entry of the `volumeLeaders` result list. -/
structure VolumeLeader where
  name : String
  symbol : String
  volume_change : ℚ
  price_change : ℚ
  deriving DecidableEq, Repr

/-- An entry of the `priceMovers` result list. -/
structure PriceMover where
  name : String
  symbol : String
  price_change : Option ℚ
  volume_change : ℚ
  deriving DecidableEq, Repr

/-- A row of the price-movers SELECT before the final mapping. -/
structure PriceMoverRow where
  name : String
  symbol : String
  price_change : Option ℚ
  volume : ℚ
  deriving DecidableEq, Repr

/-- The `MarketAnalysis` result record. -/
structure MarketAnalysis where
  volumeLeaders : List VolumeLeader
  priceMovers : List PriceMover
  deriving DecidableEq, Repr

/-- `params.timeframe === '24h' ? (params.limit || 5) : (params.limit || 10)`
(`params.limit || d` is JavaScript: `0` and `undefined` both fall back). -/
def effLimit (p : MarketAnalysisParams) : Nat :=
  match p.timeframe, p.limit with
  | .h24, some n => if n = 0 then 5 else n
  | .h24, none => 5
  | _, some n => if n = 0 then 10 else n
  | _, none => 10

/-- One day, in the seconds that `ℤ` timestamps count. -/
def oneDay : ℤ := 86400

/-- `SELECT * FROM market_data WHERE timestamp >= datetime('now', '-1 day')`. -/
def recentRows (now : ℤ) (st : DBState) : List MarketRow :=
  st.market_data.filter (fun m => now - oneDay ≤ m.timestamp)

/-- The ORDER BY key of the `recent` CTE: timestamp descending. -/
def byTimestampDesc (a b : MarketRow) : Prop := b.timestamp ≤ a.timestamp

instance : DecidableRel byTimestampDesc :=
  fun a b => inferInstanceAs (Decidable (b.timestamp ≤ a.timestamp))

/-- The `recent` CTE of the volume-leaders query: the rows of the last
day ordered by timestamp descending, LIMIT 1 — a single row for the
whole table, not one row per asset. -/
def recentRow (now : ℤ) (st : DBState) : Option MarketRow :=
  (List.insertionSort byTimestampDesc (recentRows now st)).head?

/-- `JOIN coin_categories cc ON c.id = cc.coin_id` plus the optional
`AND cc.category_id = ?` filter. -/
def categoryLinks (st : DBState) (cat : Option String) (coinId : String) :
    List (String × String) :=
  st.coin_categories.filter (fun cc =>
    cc.1 == coinId &&
      match cat with
      | none => true
      | some c => cc.2 == c)

/-- The volume-leaders SELECT before ORDER BY/LIMIT: rows `m` of the last
two days joined to `coins`, to the single `recent` row `r` on
`m.coin_id = r.coin_id`, and to `coin_categories`, with
volume/price delta percentages computed against `r`. -/
def volumeLeaderRows (now : ℤ) (st : DBState) (cat : Option String) :
    List VolumeLeader :=
  match recentRow now st with
  | none => []
  | some r =>
    (st.market_data.filter
        (fun m => now - 2 * oneDay ≤ m.timestamp && m.coin_id == r.coin_id)).flatMap
      (fun m =>
        (st.coins.filter (fun c => c.id == m.coin_id)).flatMap
          (fun c =>
            (categoryLinks st cat m.coin_id).map (fun _ =>
              { name := c.name
                symbol := c.symbol
                volume_change := (r.total_volume - m.total_volume) / m.total_volume * 100
                price_change := (r.current_price - m.current_price) / m.current_price * 100 })))

/-- `ORDER BY volume_change DESC`. -/
def byVolumeChangeDesc (a b : VolumeLeader) : Prop :=
  b.volume_change ≤ a.volume_change

instance : DecidableRel byVolumeChangeDesc :=
  fun a b => inferInstanceAs (Decidable (b.volume_change ≤ a.volume_change))

instance : IsTotal VolumeLeader byVolumeChangeDesc :=
  ⟨fun a b => le_total b.volume_change a.volume_change⟩

instance : IsTrans VolumeLeader byVolumeChangeDesc :=
  ⟨fun _ _ _ h1 h2 => le_trans h2 h1⟩

/-- The `volumeLeadersRaw` query: the joined rows ordered by
`volume_change DESC`, LIMIT `limit`. -/
def volumeLeaders (now : ℤ) (st : DBState) (cat : Option String) (limit : Nat) :
    List VolumeLeader :=
  (List.insertionSort byVolumeChangeDesc (volumeLeaderRows now st cat)).take limit

/-- `SELECT MAX(timestamp) FROM market_data`. -/
def maxTimestamp (st : DBState) : Option ℤ :=
  (st.market_data.map (fun m => m.timestamp)).max?

/-- The price-movers SELECT before ORDER BY/LIMIT: the rows at the global
maximum timestamp joined to `coins` and `coin_categories`. -/
def priceMoverRows (st : DBState) (cat : Option String) : List PriceMoverRow :=
  (st.market_data.filter (fun m => maxTimestamp st == some m.timestamp)).flatMap
    (fun m =>
      (st.coins.filter (fun c => c.id == m.coin_id)).flatMap
        (fun c =>
          (categoryLinks st cat m.coin_id).map (fun _ =>
            { name := c.name
              symbol := c.symbol
              price_change := m.price_change_percentage_24h
              volume := m.total_volume })))

/-- The `ORDER BY ABS(price_change_percentage_24h) DESC` key: SQL NULL
compares below every value, so with DESC the NULL rows sort last. -/
def pmKey (p : PriceMoverRow) : WithBot ℚ :=
  match p.price_change with
  | none => ⊥
  | some q => (|q| : ℚ)

/-- `ORDER BY ABS(price_change_percentage_24h) DESC` as a relation. -/
def byAbsPct24Desc (a b : PriceMoverRow) : Prop := pmKey b ≤ pmKey a

instance : DecidableRel byAbsPct24Desc :=
  fun a b => inferInstanceAs (Decidable (pmKey b ≤ pmKey a))

instance : IsTotal PriceMoverRow byAbsPct24Desc :=
  ⟨fun a b => le_total (pmKey b) (pmKey a)⟩

instance : IsTrans PriceMoverRow byAbsPct24Desc :=
  ⟨fun _ _ _ h1 h2 => le_trans h2 h1⟩

/-- The `priceMoversRaw` query followed by the in-process mapping
`volume_change: ((row.volume / 100) - 1) * 100`. -/
def priceMovers (st : DBState) (cat : Option String) (limit : Nat) :
    List PriceMover :=
  ((List.insertionSort byAbsPct24Desc (priceMoverRows st cat)).take limit).map
    (fun row =>
      { name := row.name
        symbol := row.symbol
        price_change := row.price_change
        volume_change := (row.volume / 100 - 1) * 100 })

/-- `MarketDatabaseAdapter.getMarketAnalysis`. -/
def getMarketAnalysis (now : ℤ) (st : DBState) (p : MarketAnalysisParams) :
    MarketAnalysis :=
  { volumeLeaders := volumeLeaders now st p.category (effLimit p)
    priceMovers := priceMovers st p.category (effLimit p) }

end MarketDb
namespace MarketDb

/-- C9: every `priceMovers` entry of `getMarketAnalysis` carries
`volume_change = ((total_volume / 100) - 1) * 100`, i.e. the underlying
row's latest raw total volume minus 100 — a function of the single
snapshot at the global maximum timestamp, not of a change between two
snapshots. -/
theorem getMarketAnalysis_priceMovers_volume_change (now : ℤ) (st : DBState)
    (p : MarketAnalysisParams) (e : PriceMover)
    (he : e ∈ (getMarketAnalysis now st p).priceMovers) :
    ∃ m ∈ st.market_data,
      maxTimestamp st = some m.timestamp ∧
      e.price_change = m.price_change_percentage_24h ∧
      e.volume_change = (m.total_volume / 100 - 1) * 100 ∧
      e.volume_change = m.total_volume - 100 := by
  simp only [getMarketAnalysis, priceMovers, List.mem_map] at he
  obtain ⟨row, hrow, hemap⟩ := he
  have hrow2 : row ∈ List.insertionSort byAbsPct24Desc (priceMoverRows st p.category) :=
    List.take_subset _ _ hrow
  have hrow3 : row ∈ priceMoverRows st p.category :=
    (List.perm_insertionSort byAbsPct24Desc _).mem_iff.mp hrow2
  simp only [priceMoverRows, List.mem_flatMap, List.mem_filter, List.mem_map]
    at hrow3
  obtain ⟨m, ⟨hm, hmax⟩, c, hc, link, hlink, hroweq⟩ := hrow3
  refine ⟨m, hm, ?_, ?_, ?_, ?_⟩
  · exact (beq_iff_eq.mp hmax)
  · rw [← hemap, ← hroweq]
  · rw [← hemap, ← hroweq]
  · rw [← hemap, ← hroweq]
    show (m.total_volume / 100 - 1) * 100 = m.total_volume - 100
    ring

/-- A `market_data` row with the given coin, price, volume and timestamp
(remaining nullable columns NULL, `data_source` at its default). -/
def mkRow (cid : String) (price vol : ℚ) (ts : ℤ) : MarketRow :=
  { coin_id := cid
    current_price := price
    market_cap := 0
    total_volume := vol
    market_cap_rank := none
    price_change_percentage_1h := none
    price_change_percentage_24h := none
    price_change_percentage_7d := none
    price_change_percentage_14d := none
    price_change_percentage_30d := none
    price_change_percentage_200d := none
    timestamp := ts
    data_source := "coingecko" }

/-- A one-coin store whose single snapshot has total volume 500. -/
def dbC9 : DBState :=
  ⟨[⟨"acoin", "A", "Acoin"⟩], [mkRow "acoin" 3 500 10], [("acoin", "x")]⟩

/-- C9 (witness): on `dbC9` the single price-movers entry has
`volume_change = (500 / 100 - 1) * 100 = 400`, the latest volume minus
100. -/
theorem getMarketAnalysis_priceMovers_volume_change_witness :
    ((⟨"Acoin", "A", none, 400⟩ : PriceMover) ∈
        (getMarketAnalysis 0 dbC9 ⟨.h24, none, none⟩).priceMovers) ∧
    (∃ m ∈ dbC9.market_data,
      maxTimestamp dbC9 = some m.timestamp ∧
      (⟨"Acoin", "A", none, 400⟩ : PriceMover).price_change =
        m.price_change_percentage_24h ∧
      (⟨"Acoin", "A", none, 400⟩ : PriceMover).volume_change =
        (m.total_volume / 100 - 1) * 100 ∧
      (⟨"Acoin", "A", none, 400⟩ : PriceMover).volume_change =
        m.total_volume - 100) := by
  have hmem : (⟨"Acoin", "A", none, 400⟩ : PriceMover) ∈
      (getMarketAnalysis 0 dbC9 ⟨.h24, none, none⟩).priceMovers := by
    norm_num [getMarketAnalysis, priceMovers, priceMoverRows, maxTimestamp,
      categoryLinks, dbC9, mkRow, effLimit, List.insertionSort, List.orderedInsert,
      List.max?, List.filter, byAbsPct24Desc, pmKey]
  exact ⟨hmem,
    getMarketAnalysis_priceMovers_volume_change 0 dbC9 ⟨.h24, none, none⟩ _ hmem⟩

/-- Asset A's most recent snapshot (the global maximum timestamp). -/
def rowA1 : MarketRow := mkRow "acoin" 2 200 1000000

/-- Asset A's snapshot from one day before `rowA1`. -/
def rowA0 : MarketRow := mkRow "acoin" 1 100 913600

/-- Asset B's most recent snapshot (within the last day, but not the
global maximum). -/
def rowB1 : MarketRow := mkRow "bcoin" 5 1000 999900

/-- Asset B's snapshot from one day before `rowB1`. -/
def rowB0 : MarketRow := mkRow "bcoin" 5 1 913500

/-- A two-asset store in which both assets belong to category `x` and
both have a latest snapshot and a snapshot from one day prior. -/
def dbC2 : DBState :=
  ⟨[⟨"acoin", "A", "Acoin"⟩, ⟨"bcoin", "B", "Bcoin"⟩],
    [rowA1, rowA0, rowB1, rowB0],
    [("acoin", "x"), ("bcoin", "x")]⟩

/-- C2 (counterexample): the volume-leaders result does not compare each
asset's most recent snapshot with that asset's snapshot from one day
prior.  In `dbC2`, asset B is in the requested category, has a most
recent snapshot `rowB1` within the last day and a snapshot `rowB0`
exactly one day earlier with a different volume, and the limit (10) is
not reached — yet no entry for B appears at all: the query's `recent`
CTE is a single global `LIMIT 1` row (here asset A's), and the join
`ON m.coin_id = r.coin_id` discards every other asset. -/
theorem getMarketAnalysis_volumeLeaders_not_per_asset :
    ((getMarketAnalysis 1000000 dbC2 ⟨.h24, some "x", some 10⟩).volumeLeaders.all
      (fun e => e.symbol != "B")) = true ∧
    (getMarketAnalysis 1000000 dbC2 ⟨.h24, some "x", some 10⟩).volumeLeaders.length < 10 ∧
    ("bcoin", "x") ∈ dbC2.coin_categories ∧
    rowB1 ∈ dbC2.market_data ∧
    1000000 - oneDay ≤ rowB1.timestamp ∧
    (∀ m ∈ dbC2.market_data, m.coin_id = "bcoin" → m.timestamp ≤ rowB1.timestamp) ∧
    rowB0 ∈ dbC2.market_data ∧
    rowB0.timestamp = rowB1.timestamp - oneDay ∧
    rowB0.total_volume ≠ rowB1.total_volume := by
  have hvl : (getMarketAnalysis 1000000 dbC2
      ⟨.h24, some "x", some 10⟩).volumeLeaders =
      [⟨"Acoin", "A", 100, 100⟩, ⟨"Acoin", "A", 0, 0⟩] := by
    norm_num [getMarketAnalysis, volumeLeaders, volumeLeaderRows, recentRow,
      recentRows, categoryLinks, dbC2, rowA1, rowA0, rowB1, rowB0, mkRow, oneDay,
      effLimit, List.insertionSort, List.orderedInsert, List.filter,
      byTimestampDesc, byVolumeChangeDesc]
  refine ⟨?_, ?_, ?_, ?_, ?_, ?_, ?_, ?_, ?_⟩
  · rw [hvl]; rfl
  · rw [hvl]; norm_num
  · norm_num [dbC2]
  · norm_num [dbC2]
  · norm_num [rowB1, mkRow, oneDay]
  · intro m hm hb
    simp only [dbC2, List.mem_cons, List.mem_singleton] at hm
    rcases hm with rfl | rfl | rfl | rfl | h
    · exact absurd hb (by decide)
    · exact absurd hb (by decide)
    · norm_num [rowB1, mkRow]
    · norm_num [rowB0, rowB1, mkRow]
    · cases h
  · norm_num [dbC2]
  · norm_num [rowB0, rowB1, mkRow, oneDay]
  · norm_num [rowB0, rowB1, mkRow]

/-- C2 (amended): every volume-leaders entry of `getMarketAnalysis`
arises from the single globally most recent snapshot `r` of the last day
(one row for the whole table, `ORDER BY timestamp DESC LIMIT 1`) paired
with a snapshot `m` of that same single asset from the last two days;
the volume/price delta percentages are computed from that pair, the
category restriction applies through the junction table, and the result
is ordered by the computed volume delta descending and truncated to the
limit. -/
theorem getMarketAnalysis_volumeLeaders_shape (now : ℤ) (st : DBState)
    (p : MarketAnalysisParams) :
    (∀ e ∈ (getMarketAnalysis now st p).volumeLeaders,
      ∃ r, recentRow now st = some r ∧
      ∃ m ∈ st.market_data,
        m.coin_id = r.coin_id ∧
        now - 2 * oneDay ≤ m.timestamp ∧
        e.volume_change = (r.total_volume - m.total_volume) / m.total_volume * 100 ∧
        e.price_change = (r.current_price - m.current_price) / m.current_price * 100 ∧
        (∃ c ∈ st.coins, c.id = m.coin_id ∧ e.name = c.name ∧ e.symbol = c.symbol) ∧
        (∃ link ∈ st.coin_categories, link.1 = m.coin_id ∧
          ∀ cat, p.category = some cat → link.2 = cat)) ∧
    (getMarketAnalysis now st p).volumeLeaders.length ≤ effLimit p ∧
    List.Sorted byVolumeChangeDesc (getMarketAnalysis now st p).volumeLeaders := by
  refine ⟨?_, ?_, ?_⟩
  · intro e he
    simp only [getMarketAnalysis, volumeLeaders] at he
    have he2 : e ∈ List.insertionSort byVolumeChangeDesc
        (volumeLeaderRows now st p.category) := List.take_subset _ _ he
    have he3 : e ∈ volumeLeaderRows now st p.category :=
      (List.perm_insertionSort byVolumeChangeDesc _).mem_iff.mp he2
    unfold volumeLeaderRows at he3
    cases hrec : recentRow now st with
    | none => rw [hrec] at he3; cases he3
    | some r =>
      rw [hrec] at he3
      refine ⟨r, rfl, ?_⟩
      simp only [List.mem_flatMap, List.mem_filter, List.mem_map, Bool.and_eq_true,
        decide_eq_true_eq, beq_iff_eq] at he3
      obtain ⟨m, ⟨hm, hts, hcid⟩, c, ⟨hc, hcidc⟩, link, hlink, heq⟩ := he3
      refine ⟨m, hm, hcid, hts, ?_, ?_, ⟨c, hc, hcidc, ?_, ?_⟩, ?_⟩
      · rw [← heq]
      · rw [← heq]
      · rw [← heq]
      · rw [← heq]
      · refine ⟨link, ?_, ?_, ?_⟩
        · exact (List.mem_filter.mp hlink).1
        · have := (List.mem_filter.mp hlink).2
          simp only [Bool.and_eq_true, beq_iff_eq] at this
          exact this.1
        · intro cat hcat
          have := (List.mem_filter.mp hlink).2
          rw [hcat] at this
          simp only [Bool.and_eq_true, beq_iff_eq] at this
          exact this.2
  · exact List.length_take_le _ _
  · have hs : List.Sorted byVolumeChangeDesc
        (List.insertionSort byVolumeChangeDesc (volumeLeaderRows now st p.category)) :=
      List.sorted_insertionSort byVolumeChangeDesc _
    exact List.Pairwise.sublist (List.take_sublist _ _) hs

/-- C2 (witness): the amended characterization applied to the concrete
store `dbC2` at its top volume-leaders entry. -/
theorem getMarketAnalysis_volumeLeaders_shape_witness :
    ((⟨"Acoin", "A", 100, 100⟩ : VolumeLeader) ∈
      (getMarketAnalysis 1000000 dbC2 ⟨.h24, some "x", some 10⟩).volumeLeaders) ∧
    (∃ r, recentRow 1000000 dbC2 = some r ∧
      ∃ m ∈ dbC2.market_data,
        m.coin_id = r.coin_id ∧
        1000000 - 2 * oneDay ≤ m.timestamp ∧
        (⟨"Acoin", "A", 100, 100⟩ : VolumeLeader).volume_change =
          (r.total_volume - m.total_volume) / m.total_volume * 100 ∧
        (⟨"Acoin", "A", 100, 100⟩ : VolumeLeader).price_change =
          (r.current_price - m.current_price) / m.current_price * 100 ∧
        (∃ c ∈ dbC2.coins, c.id = m.coin_id ∧
          (⟨"Acoin", "A", 100, 100⟩ : VolumeLeader).name = c.name ∧
          (⟨"Acoin", "A", 100, 100⟩ : VolumeLeader).symbol = c.symbol) ∧
        (∃ link ∈ dbC2.coin_categories, link.1 = m.coin_id ∧
          ∀ cat, (⟨MarketTimeframe.h24, some "x", some 10⟩ :
              MarketAnalysisParams).category = some cat → link.2 = cat)) := by
  have hmem : (⟨"Acoin", "A", 100, 100⟩ : VolumeLeader) ∈
      (getMarketAnalysis 1000000 dbC2 ⟨.h24, some "x", some 10⟩).volumeLeaders := by
    norm_num [getMarketAnalysis, volumeLeaders, volumeLeaderRows, recentRow,
      recentRows, categoryLinks, dbC2, rowA1, rowA0, rowB1, rowB0, mkRow, oneDay,
      effLimit, List.insertionSort, List.orderedInsert, List.filter,
      byTimestampDesc, byVolumeChangeDesc]
  exact ⟨hmem,
    (getMarketAnalysis_volumeLeaders_shape 1000000 dbC2
      ⟨.h24, some "x", some 10⟩).1 _ hmem⟩

end MarketDb
namespace CoinGeckoSync

/-- `MAX_RETRIES = 3` of plugin-coingecko's MarketDataService. -/
def MAX_RETRIES : Nat := 3

/-- `RETRY_DELAY = 5 * 60 * 1000` ms. -/
def RETRY_DELAY : Nat := 5 * 60 * 1000

/-- `MINIMUM_UPDATE_GAP = 55 * 60 * 1000` ms. -/
def MINIMUM_UPDATE_GAP : ℤ := 55 * 60 * 1000

/-- `UPDATE_INTERVAL = 60 * 60 * 1000` ms. -/
def UPDATE_INTERVAL : Nat := 60 * 60 * 1000

/-- Observable outcome of one `updateMarketData` call: how many
fetch-and-store attempts ran, the sleeps between consecutive attempts,
whether the call returned normally (`ok = true`) or threw after
exhausting retries, and whether `this.lastUpdateTime = Date.now()` was
executed. -/
structure UpdateOutcome where
  attempts : Nat
  delays : List Nat
  ok : Bool
  lastUpdateSet : Bool
  deriving DecidableEq, Repr

/-- The `while (retryCount < this.MAX_RETRIES)` loop of
`updateMarketData`, with `fuel = MAX_RETRIES - retryCount` remaining
allowed attempts and `idx` the current attempt index.  `attempt idx`
tells whether the fetch-both-categories-then-store body of attempt `idx`
succeeds.  On success the loop returns (after setting `lastUpdateTime`);
on failure it sleeps `RETRY_DELAY` and retries while attempts remain,
and throws once `retryCount` reaches `MAX_RETRIES`. -/
def updateAux (attempt : Nat → Bool) : Nat → Nat → UpdateOutcome
  | 0, _ => ⟨0, [], false, false⟩
  | fuel + 1, idx =>
    if attempt idx then ⟨1, [], true, true⟩
    else if fuel = 0 then ⟨1, [], false, false⟩
    else
      let r := updateAux attempt fuel (idx + 1)
      ⟨r.attempts + 1, RETRY_DELAY :: r.delays, r.ok, r.lastUpdateSet⟩

/-- `MarketDataService.updateMarketData` (plugin-coingecko). -/
def updateMarketData (attempt : Nat → Bool) : UpdateOutcome :=
  updateAux attempt MAX_RETRIES 0

theorem updateAux_lastUpdateSet_eq_ok (attempt : Nat → Bool) :
    ∀ fuel idx, (updateAux attempt fuel idx).lastUpdateSet =
      (updateAux attempt fuel idx).ok := by
  intro fuel
  induction fuel with
  | zero => intro idx; rfl
  | succ n ih =>
    intro idx
    simp only [updateAux]
    by_cases h : attempt idx
    · simp [h]
    · by_cases hn : n = 0
      · simp [h, hn]
      · simp [h, hn, ih]

/-- C4: when every fetch-and-store attempt fails, `updateMarketData`
makes exactly `MAX_RETRIES = 3` attempts with a `RETRY_DELAY` (5 min)
sleep between consecutive attempts (two sleeps for three attempts),
then reports the cycle as failed by throwing; and — for every attempt
oracle — `lastUpdateTime` is set exactly when the call succeeds, never
on a failed run. -/
theorem updateMarketData_retry_exhaustion :
    (∀ attempt : Nat → Bool, (∀ k, attempt k = false) →
      updateMarketData attempt =
        ⟨MAX_RETRIES, [RETRY_DELAY, RETRY_DELAY], false, false⟩) ∧
    (∀ attempt : Nat → Bool,
      (updateMarketData attempt).lastUpdateSet = (updateMarketData attempt).ok) := by
  constructor
  · intro attempt h
    simp [updateMarketData, MAX_RETRIES, updateAux, h 0, h 1, h 2]
  · intro attempt
    exact updateAux_lastUpdateSet_eq_ok attempt MAX_RETRIES 0

/-- C4 (witness): the theorem applied to the always-failing oracle. -/
theorem updateMarketData_retry_exhaustion_witness :
    updateMarketData (fun _ => false) =
      ⟨MAX_RETRIES, [RETRY_DELAY, RETRY_DELAY], false, false⟩ ∧
    (updateMarketData (fun _ => false)).lastUpdateSet =
      (updateMarketData (fun _ => false)).ok :=
  ⟨updateMarketData_retry_exhaustion.1 (fun _ => false) (fun _ => rfl),
    updateMarketData_retry_exhaustion.2 (fun _ => false)⟩

/-- The scheduler state of plugin-coingecko's MarketDataService:
`isUpdating`, `lastUpdateTime`, plus the number of sync cycles currently
in flight (observable bookkeeping, not a source field). -/
structure SchedulerState where
  updating : Bool
  lastUpdateTime : ℤ
  inFlight : Nat
  deriving DecidableEq, Repr

/-- Events of the scheduler: a timer tick entering `checkAndUpdate`
at wall-clock `now`, and the completion of the in-flight cycle (its
`finally` clears the flag; on success `lastUpdateTime` was set). -/
inductive SchedulerEvent
  | tick (now : ℤ)
  | finish (success : Bool) (now : ℤ)
  deriving DecidableEq, Repr

/-- The guard prefix of `checkAndUpdate`: skip when `isUpdating`, skip
when `Date.now() - lastUpdateTime < MINIMUM_UPDATE_GAP`, otherwise set
`isUpdating = true` and begin a cycle. -/
def checkAndUpdateTick (st : SchedulerState) (now : ℤ) : SchedulerState :=
  if st.updating then st
  else if now - st.lastUpdateTime < MINIMUM_UPDATE_GAP then st
  else { st with updating := true, inFlight := st.inFlight + 1 }

/-- Completion of a running cycle: the `finally` sets `isUpdating` back
to `false`; a successful cycle has set `lastUpdateTime = Date.now()`. -/
def finishCycle (st : SchedulerState) (success : Bool) (now : ℤ) : SchedulerState :=
  if st.updating then
    { updating := false
      lastUpdateTime := if success then now else st.lastUpdateTime
      inFlight := st.inFlight - 1 }
  else st

/-- One scheduler step. -/
def schedStep (st : SchedulerState) : SchedulerEvent → SchedulerState
  | .tick now => checkAndUpdateTick st now
  | .finish success now => finishCycle st success now

/-- A run of the scheduler from a state over a list of events. -/
def schedExec (st : SchedulerState) (events : List SchedulerEvent) : SchedulerState :=
  events.foldl schedStep st

/-- The state at service construction: not updating, `lastUpdateTime = 0`. -/
def initScheduler : SchedulerState := ⟨false, 0, 0⟩

/-- The invariant tying the in-flight count to the `isUpdating` flag. -/
def schedInv (st : SchedulerState) : Prop :=
  st.inFlight = if st.updating then 1 else 0

theorem schedStep_inv (st : SchedulerState) (e : SchedulerEvent)
    (h : schedInv st) : schedInv (schedStep st e) := by
  cases e with
  | tick now =>
    simp only [schedStep, checkAndUpdateTick]
    by_cases hu : st.updating
    · simpa [hu]
    · by_cases hg : now - st.lastUpdateTime < MINIMUM_UPDATE_GAP
      · simpa [hu, hg]
      · simp only [schedInv] at h
        simp [hu, hg, schedInv, h]
  | finish success now =>
    simp only [schedStep, finishCycle]
    by_cases hu : st.updating
    · simp only [schedInv] at h
      simp [hu, schedInv, h]
    · simpa [hu]

theorem schedExec_inv (events : List SchedulerEvent) :
    ∀ st : SchedulerState, schedInv st → schedInv (schedExec st events) := by
  induction events with
  | nil => intro st h; exact h
  | cons e rest ih =>
    intro st h
    exact ih _ (schedStep_inv st e h)

/-- C7: on a timer tick, `checkAndUpdate` starts no new cycle when one
is in flight (`isUpdating`) or when less than `MINIMUM_UPDATE_GAP`
(55 min) has elapsed since `lastUpdateTime` — the state is unchanged —
and along every event trace from the initial state at most one sync
cycle is in flight. -/
theorem checkAndUpdate_no_overlap :
    (∀ (st : SchedulerState) (now : ℤ), st.updating = true →
      checkAndUpdateTick st now = st) ∧
    (∀ (st : SchedulerState) (now : ℤ),
      now - st.lastUpdateTime < MINIMUM_UPDATE_GAP →
      checkAndUpdateTick st now = st) ∧
    (∀ events : List SchedulerEvent,
      (schedExec initScheduler events).inFlight ≤ 1) := by
  refine ⟨?_, ?_, ?_⟩
  · intro st now h
    simp [checkAndUpdateTick, h]
  · intro st now h
    by_cases hu : st.updating
    · simp [checkAndUpdateTick, hu]
    · simp [checkAndUpdateTick, hu, h]
  · intro events
    have h := schedExec_inv events initScheduler (by simp [schedInv, initScheduler])
    rw [h]
    by_cases hu : (schedExec initScheduler events).updating <;> simp [hu]

/-- C7 (witness): the gating applied at concrete states — a tick during
an in-flight cycle, a tick 54 minutes after the last update — and the
in-flight bound on a concrete trace. -/
theorem checkAndUpdate_no_overlap_witness :
    checkAndUpdateTick ⟨true, 0, 1⟩ (10 ^ 9) = ⟨true, 0, 1⟩ ∧
    checkAndUpdateTick ⟨false, 0, 0⟩ (54 * 60 * 1000) = ⟨false, 0, 0⟩ ∧
    (schedExec initScheduler
      [.tick (10 ^ 9), .tick (10 ^ 9 + 1), .finish true (10 ^ 9 + 2)]).inFlight ≤ 1 :=
  ⟨checkAndUpdate_no_overlap.1 ⟨true, 0, 1⟩ (10 ^ 9) rfl,
    checkAndUpdate_no_overlap.2.1 ⟨false, 0, 0⟩ (54 * 60 * 1000) (by decide),
    checkAndUpdate_no_overlap.2.2 _⟩

end CoinGeckoSync
namespace BaseMarketFetch

/-- `per_page: 250` of `fetchMarketData` (plugin-base-market). -/
def PER_PAGE : Nat := 250

/-- The 1.1 s inter-page sleep of `fetchMarketData`, in milliseconds. -/
def PAGE_DELAY_MS : Nat := 1100

/-- Observable trace of one `fetchMarketData` pagination run: the
accumulated `allTokens`, the number of page requests issued, and the
sleeps performed between page requests. -/
structure FetchTrace (α : Type) where
  tokens : List α
  requests : Nat
  delays : List Nat
  deriving DecidableEq, Repr

/-- The `while (hasMoreData)` loop of `fetchMarketData`: request the
current page from the upstream (`pages`), append its records; when the
page holds fewer than `PER_PAGE` records the loop ends, otherwise the
code sleeps `PAGE_DELAY_MS` and moves to the next page.  `fuel` bounds
the number of requests still allowed; `none` means the fuel ran out with
the loop still running. -/
def fetchPagesAux {α : Type} (pages : Nat → List α) :
    Nat → Nat → Option (FetchTrace α)
  | 0, _ => none
  | fuel + 1, page =>
    let d := pages page
    if d.length < PER_PAGE then some ⟨d, 1, []⟩
    else
      match fetchPagesAux pages fuel (page + 1) with
      | none => none
      | some t => some ⟨d ++ t.tokens, t.requests + 1, PAGE_DELAY_MS :: t.delays⟩

/-- `MarketDataService.fetchMarketData` pagination, starting at
`currentPage = 1`. -/
def fetchMarketData {α : Type} (pages : Nat → List α) (fuel : Nat) :
    Option (FetchTrace α) :=
  fetchPagesAux pages fuel 1

/-- The concatenation of `n` upstream pages starting at page `p`. -/
def pagesConcat {α : Type} (pages : Nat → List α) (p n : Nat) : List α :=
  (List.range n).flatMap (fun i => pages (p + i))

theorem pagesConcat_cons {α : Type} (pages : Nat → List α) (p n : Nat) :
    pagesConcat pages p (n + 1) = pages p ++ pagesConcat pages (p + 1) n := by
  have hfun : (fun a : Nat => pages (p + a.succ)) = (fun i : Nat => pages (p + 1 + i)) := by
    funext i
    congr 1
    omega
  simp only [pagesConcat, List.range_succ_eq_map, List.flatMap_cons,
    List.flatMap_map, Nat.add_zero, Function.comp]
  rw [hfun]

theorem fetchPagesAux_full_then_short {α : Type} (pages : Nat → List α) :
    ∀ (n p fuel : Nat),
      (∀ i < n, (pages (p + i)).length = PER_PAGE) →
      (pages (p + n)).length < PER_PAGE →
      n + 1 ≤ fuel →
      fetchPagesAux pages fuel p =
        some ⟨pagesConcat pages p (n + 1), n + 1, List.replicate n PAGE_DELAY_MS⟩ := by
  intro n
  induction n with
  | zero =>
    intro p fuel _ hshort hfuel
    obtain ⟨f, rfl⟩ : ∃ f, fuel = f + 1 := ⟨fuel - 1, by omega⟩
    simp only [fetchPagesAux]
    rw [if_pos (by simpa using hshort)]
    simp [pagesConcat, List.range_succ]
  | succ m ih =>
    intro p fuel hfull hshort hfuel
    obtain ⟨f, rfl⟩ : ∃ f, fuel = f + 1 := ⟨fuel - 1, by omega⟩
    have hfullp : (pages p).length = PER_PAGE := by
      simpa using hfull 0 (Nat.succ_pos m)
    have hrest : fetchPagesAux pages f (p + 1) =
        some ⟨pagesConcat pages (p + 1) (m + 1), m + 1,
          List.replicate m PAGE_DELAY_MS⟩ := by
      apply ih
      · intro i hi
        have := hfull (i + 1) (by omega)
        simpa [Nat.add_assoc, Nat.add_comm 1 i] using this
      · have : p + 1 + m = p + (m + 1) := by omega
        rw [this]
        exact hshort
      · omega
    simp only [fetchPagesAux]
    rw [if_neg (by omega), hrest, pagesConcat_cons pages p (m + 1),
      List.replicate_succ]

/-- C5: when the upstream returns exactly `PER_PAGE = 250` records for
pages 1..N and fewer on page N+1, `fetchMarketData` issues exactly N+1
page requests starting at page 1, returns the in-order concatenation of
all pages, and sleeps the fixed 1.1 s delay after each full page but not
after the final short page (N sleeps for N+1 requests). -/
theorem fetchMarketData_pagination {α : Type} (pages : Nat → List α)
    (N fuel : Nat)
    (hfull : ∀ i < N, (pages (1 + i)).length = PER_PAGE)
    (hshort : (pages (1 + N)).length < PER_PAGE)
    (hfuel : N + 1 ≤ fuel) :
    fetchMarketData pages fuel =
      some ⟨pagesConcat pages 1 (N + 1), N + 1, List.replicate N PAGE_DELAY_MS⟩ :=
  fetchPagesAux_full_then_short pages N 1 fuel hfull hshort hfuel

end BaseMarketFetch
namespace BaseMarketFetch

/-- A mocked upstream with exactly one full page (page 1) and an empty
page thereafter. -/
def pagesW : Nat → List Nat :=
  fun k => if k = 1 then List.replicate PER_PAGE 0 else []

set_option maxRecDepth 4000 in
/-- C5 (witness): the pagination theorem applied to `pagesW` with N = 1:
two requests, the concatenation of both pages, one 1.1 s sleep. -/
theorem fetchMarketData_pagination_witness :
    fetchMarketData pagesW 2 =
      some ⟨pagesConcat pagesW 1 2, 2, List.replicate 1 PAGE_DELAY_MS⟩ :=
  fetchMarketData_pagination pagesW 1 2
    (fun i hi => by
      have h0 : i = 0 := by omega
      subst h0
      simp [pagesW, PER_PAGE])
    (by simp [pagesW, PER_PAGE]) (by omega)

end BaseMarketFetch

namespace TokenInfoSvc

/-- `RATE_LIMIT = 30` requests per minute. -/
def RATE_LIMIT : Nat := 30

/-- `DELAY_BETWEEN_REQUESTS = 60000 / RATE_LIMIT` = 2000 ms. -/
def DELAY_BETWEEN_REQUESTS : Nat := 60 * 1000 / RATE_LIMIT

/-- The `backoffTime = 60000` ms of `handleRateLimit`. -/
def BACKOFF_MS : Nat := 60000

/-- Outcome of one `fetchTokenInfo` call for an identifier:
a successful fetch-and-store, an HTTP 429 (the rate-limit branch),
or any other failure (network error, validation, db error). -/
inductive FetchOutcome
  | ok
  | rateLimited
  | failed
  deriving DecidableEq, Repr

/-- The state of one `processBulkTokenInfo` drain pass: the
`requestQueue`, how often each identifier has been fetched so far (the
attempt index fed to the outcome oracle), the success/failure counters,
the `failedTokenIds` list, and a virtual clock accumulating the awaited
sleeps (ms). -/
structure DrainState where
  queue : List String
  attempts : String → Nat
  successCount : Nat
  failureCount : Nat
  failedTokenIds : List String
  clock : Nat

/-- One iteration of the `while (this.requestQueue.length > 0)` loop:
`shift()` the front identifier, `await this.rateLimit()` (2000 ms),
then `fetchTokenInfo`.  On 429 `fetchTokenInfo` awaits the 60 s backoff
and `unshift`s the identifier back to the front before returning
`success: false` — after which the loop still increments `failureCount`
and records the identifier in `failedTokenIds`.  On any other outcome
the identifier is not re-enqueued. -/
def drainStep (fetch : String → Nat → FetchOutcome) (st : DrainState) : DrainState :=
  match st.queue with
  | [] => st
  | id :: rest =>
    let a := st.attempts id
    let st1 : DrainState :=
      { st with
        queue := rest
        attempts := fun s => if s = id then a + 1 else st.attempts s
        clock := st.clock + DELAY_BETWEEN_REQUESTS }
    match fetch id a with
    | .ok => { st1 with successCount := st1.successCount + 1 }
    | .failed =>
      { st1 with
        failureCount := st1.failureCount + 1
        failedTokenIds := st1.failedTokenIds ++ [id] }
    | .rateLimited =>
      { st1 with
        queue := id :: rest
        clock := st1.clock + BACKOFF_MS
        failureCount := st1.failureCount + 1
        failedTokenIds := st1.failedTokenIds ++ [id] }

/-- The drain loop, driven by a fuel bound on iterations; the loop in
the source runs until the queue is empty (it has no fuel — the fuel is
the embedding's termination device). -/
def drainRun (fetch : String → Nat → FetchOutcome) : Nat → DrainState → DrainState
  | 0, st => st
  | fuel + 1, st =>
    match st.queue with
    | [] => st
    | _ :: _ => drainRun fetch fuel (drainStep fetch st)

/-- The state at the top of `processBulkTokenInfo`:
`this.requestQueue = [...tokenIds]`, counters zero. -/
def initDrain (tokenIds : List String) : DrainState :=
  { queue := tokenIds
    attempts := fun _ => 0
    successCount := 0
    failureCount := 0
    failedTokenIds := []
    clock := 0 }

/-- `TokenInfoService.processBulkTokenInfo`, run with the given fuel. -/
def processBulkTokenInfo (fetch : String → Nat → FetchOutcome)
    (tokenIds : List String) (fuel : Nat) : DrainState :=
  drainRun fetch fuel (initDrain tokenIds)

/-- An oracle for which identifier `x` is rate limited on its first
fetch and succeeds on every later fetch. -/
def fetch429Once : String → Nat → FetchOutcome :=
  fun _ a => if a = 0 then .rateLimited else .ok

/-- C3 (counterexample): a 429 outcome IS counted as a failure by the
drain pass.  With queue `[x]` and an oracle that returns 429 once and
then succeeds, the pass ends with `failureCount = 1` and `x` recorded in
`failedTokenIds` (besides `successCount = 1` for the later success) —
the claim's "does not count that outcome as a failure" would require
`failureCount = 0`. -/
theorem processBulkTokenInfo_429_counted :
    (processBulkTokenInfo fetch429Once ["x"] 3).failureCount = 1 ∧
    (processBulkTokenInfo fetch429Once ["x"] 3).failedTokenIds = ["x"] ∧
    (processBulkTokenInfo fetch429Once ["x"] 3).successCount = 1 ∧
    (processBulkTokenInfo fetch429Once ["x"] 3).queue = [] := by
  refine ⟨?_, ?_, ?_, ?_⟩ <;> rfl

/-- C3 (amended): when the front identifier's fetch returns HTTP 429,
the drain iteration re-enqueues it at the front of the queue (the queue
is unchanged, the identifier is the next to be dequeued), the extended
60 s backoff plus the 2 s spacing elapse within the iteration — before
the next dequeue — and, contrary to the claim, the outcome IS counted:
`failureCount` is incremented and the identifier is appended to
`failedTokenIds`. -/
theorem drainStep_rateLimited (fetch : String → Nat → FetchOutcome)
    (st : DrainState) (id : String) (rest : List String)
    (hq : st.queue = id :: rest)
    (h429 : fetch id (st.attempts id) = .rateLimited) :
    (drainStep fetch st).queue = id :: rest ∧
    (drainStep fetch st).clock = st.clock + DELAY_BETWEEN_REQUESTS + BACKOFF_MS ∧
    (drainStep fetch st).failureCount = st.failureCount + 1 ∧
    (drainStep fetch st).failedTokenIds = st.failedTokenIds ++ [id] ∧
    (drainStep fetch st).successCount = st.successCount := by
  simp [drainStep, hq, h429]

/-- C3 (witness): the amended step property at the concrete state
`initDrain ["x"]` under the once-429 oracle. -/
theorem drainStep_rateLimited_witness :
    (drainStep fetch429Once (initDrain ["x"])).queue = ["x"] ∧
    (drainStep fetch429Once (initDrain ["x"])).clock =
      (initDrain ["x"]).clock + DELAY_BETWEEN_REQUESTS + BACKOFF_MS ∧
    (drainStep fetch429Once (initDrain ["x"])).failureCount =
      (initDrain ["x"]).failureCount + 1 ∧
    (drainStep fetch429Once (initDrain ["x"])).failedTokenIds =
      (initDrain ["x"]).failedTokenIds ++ ["x"] ∧
    (drainStep fetch429Once (initDrain ["x"])).successCount =
      (initDrain ["x"]).successCount :=
  drainStep_rateLimited fetch429Once (initDrain ["x"]) "x" [] rfl rfl

end TokenInfoSvc
namespace TokenInfoSvc

/-- Termination measure for the drain loop, given a per-identifier bound
`B` after which fetches stop being rate limited: remaining work per
queue occurrence plus the queue length. -/
def drainMeasure (B : String → Nat) (st : DrainState) : Nat :=
  (st.queue.map (fun id => B id + 1 - st.attempts id)).sum + st.queue.length

theorem drainStep_measure_lt (fetch : String → Nat → FetchOutcome)
    (B : String → Nat)
    (hcontra : ∀ id a, fetch id a = .rateLimited → a < B id)
    (st : DrainState) (hq : st.queue ≠ []) :
    drainMeasure B (drainStep fetch st) < drainMeasure B st := by
  obtain ⟨q, att, sc, fc, fti, ck⟩ := st
  cases q with
  | nil => exact absurd rfl hq
  | cons front rest =>
    have hpoint : ∀ id ∈ rest,
        B id + 1 - (if id = front then att front + 1 else att id) ≤
          B id + 1 - att id := by
      intro id _
      by_cases hid : id = front
      · subst hid
        simp only [if_true, eq_self_iff_true]
        omega
      · simp [hid]
    have hsum : (rest.map (fun id =>
        B id + 1 - (if id = front then att front + 1 else att id))).sum ≤
        (rest.map (fun id => B id + 1 - att id)).sum :=
      List.sum_le_sum hpoint
    cases hf : fetch front (att front) with
    | ok =>
      simp only [drainStep, hf, drainMeasure, List.map_cons, List.sum_cons,
        List.length_cons]
      omega
    | failed =>
      simp only [drainStep, hf, drainMeasure, List.map_cons, List.sum_cons,
        List.length_cons]
      omega
    | rateLimited =>
      have ha : att front < B front := hcontra front (att front) hf
      simp only [drainStep, hf, drainMeasure, List.map_cons, List.sum_cons,
        List.length_cons, eq_self_iff_true, if_true]
      omega

theorem drainRun_empties (fetch : String → Nat → FetchOutcome)
    (B : String → Nat)
    (hcontra : ∀ id a, fetch id a = .rateLimited → a < B id) :
    ∀ (n : Nat) (st : DrainState),
      drainMeasure B st ≤ n → (drainRun fetch n st).queue = [] := by
  intro n
  induction n with
  | zero =>
    intro st h
    have hlen : st.queue.length = 0 := by
      unfold drainMeasure at h
      omega
    simpa [drainRun] using List.eq_nil_of_length_eq_zero hlen
  | succ n ih =>
    intro st h
    cases hcase : st.queue with
    | nil => simp [drainRun, hcase]
    | cons f r =>
      simp only [drainRun, hcase]
      apply ih
      have hlt := drainStep_measure_lt fetch B hcontra st (by rw [hcase]; simp)
      omega

/-- C10: the drain loop of `processBulkTokenInfo` empties its queue when
every identifier's fetch stops returning 429 after finitely many
attempts (some fuel suffices to finish with an empty queue), while a 429
re-enqueues the identifier at the front to be dequeued again — so if
some enqueued identifier is rate limited on every attempt, the queue is
never empty and the loop never completes, whatever the fuel. -/
theorem processBulkTokenInfo_termination :
    (∀ (fetch : String → Nat → FetchOutcome) (tokenIds : List String),
      (∀ id, ∃ B, ∀ k, B ≤ k → fetch id k ≠ .rateLimited) →
      ∃ fuel, (processBulkTokenInfo fetch tokenIds fuel).queue = []) ∧
    (∀ (fetch : String → Nat → FetchOutcome) (tokenIds : List String)
        (id : String) (fuel : Nat),
      id ∈ tokenIds → (∀ k, fetch id k = .rateLimited) →
      (processBulkTokenInfo fetch tokenIds fuel).queue ≠ []) := by
  constructor
  · intro fetch tokenIds h
    choose B hB using h
    have hcontra : ∀ id a, fetch id a = .rateLimited → a < B id := by
      intro id a ha
      by_contra hle
      push_neg at hle
      exact hB id a hle ha
    exact ⟨drainMeasure B (initDrain tokenIds),
      drainRun_empties fetch B hcontra _ _ le_rfl⟩
  · intro fetch tokenIds id fuel hmem hbad
    have hstep : ∀ st : DrainState, id ∈ st.queue →
        id ∈ (drainStep fetch st).queue := by
      intro st hin
      obtain ⟨q, att, sc, fc, fti, ck⟩ := st
      cases q with
      | nil => cases hin
      | cons front rest =>
        rcases List.mem_cons.mp hin with rfl | hr
        · rw [show (⟨id :: rest, att, sc, fc, fti, ck⟩ : DrainState).queue =
            id :: rest from rfl] at hin
          cases hf : fetch id (att id) with
          | ok => exact absurd (hbad (att id)) (by simp [hf])
          | failed => exact absurd (hbad (att id)) (by simp [hf])
          | rateLimited => simp [drainStep, hf]
        · cases hf : fetch front (att front) with
          | ok => simpa [drainStep, hf] using hr
          | failed => simpa [drainStep, hf] using hr
          | rateLimited => simp [drainStep, hf, List.mem_cons, hr]
    have hrun : ∀ (n : Nat) (st : DrainState), id ∈ st.queue →
        id ∈ (drainRun fetch n st).queue := by
      intro n
      induction n with
      | zero => intro st hin; simpa [drainRun] using hin
      | succ n ih =>
        intro st hin
        cases hcase : st.queue with
        | nil => rw [hcase] at hin; cases hin
        | cons f r =>
          simp only [drainRun, hcase]
          exact ih _ (hstep st hin)
    exact List.ne_nil_of_mem (hrun fuel (initDrain tokenIds) hmem)

/-- C10 (witness): the termination half on an always-successful oracle
over two identifiers, and the non-termination half on an always-429
oracle with fuel 5. -/
theorem processBulkTokenInfo_termination_witness :
    (∃ fuel,
      (processBulkTokenInfo (fun _ _ => .ok) ["a", "b"] fuel).queue = []) ∧
    (processBulkTokenInfo (fun _ _ => .rateLimited) ["a"] 5).queue ≠ [] :=
  ⟨processBulkTokenInfo_termination.1 (fun _ _ => .ok) ["a", "b"]
      (fun _ => ⟨0, fun _ _ => by simp⟩),
    processBulkTokenInfo_termination.2 (fun _ _ => .rateLimited) ["a"] "a" 5
      (by simp) (fun _ => rfl)⟩

end TokenInfoSvc
namespace BaseMarketMovers

/-- A row of `base_market_data` as read by `getNotableMovers`
(plugin-base-market): only the columns the query touches.
`price_change_percentage_7d` stands for the
`price_change_percentage_7d_in_currency` column. -/
structure BMarketRow where
  id : String
  current_price : ℚ
  market_cap : ℚ
  total_volume : ℚ
  price_change_percentage_24h : ℚ
  price_change_percentage_7d : ℚ
  timestamp : ℤ
  deriving DecidableEq, Repr

/-- A row of `base_token_info` as joined by `getNotableMovers`. -/
structure TokenInfoRow where
  id : String
  name : String
  symbol : String
  asset_platform_id : Option String
  deriving DecidableEq, Repr

/-- The two tables read by `getNotableMovers`. -/
structure BaseDB where
  base_market_data : List BMarketRow
  base_token_info : List TokenInfoRow
  deriving DecidableEq, Repr

/-- `SELECT MAX(timestamp) FROM base_market_data`. -/
def maxTs (db : BaseDB) : Option ℤ :=
  (db.base_market_data.map (fun r => r.timestamp)).max?

/-- The `base_native_metrics` CTE: rows at the latest timestamp joined
to `base_token_info` on id with `asset_platform_id = 'base'`, restricted
to `market_cap >= 5000000`, `total_volume >= 300000` and an absolute
24h or 7d percentage change of at least 5. -/
def baseNativeMetrics (db : BaseDB) : List (BMarketRow × TokenInfoRow) :=
  db.base_market_data.flatMap (fun r =>
    if maxTs db = some r.timestamp ∧
        5000000 ≤ r.market_cap ∧
        300000 ≤ r.total_volume ∧
        (5 ≤ |r.price_change_percentage_24h| ∨
          5 ≤ |r.price_change_percentage_7d|) then
      (db.base_token_info.filter (fun t =>
        t.id == r.id && t.asset_platform_id == some "base")).map (fun t => (r, t))
    else [])

/-- The two timeframes of the UNION (`last_24h` and `last_7d`). -/
inductive MoverTimeframe
  | h24
  | d7
  deriving DecidableEq, Repr

/-- The percentage-change column the given timeframe ranks by. -/
def pctOf : MoverTimeframe → BMarketRow → ℚ
  | .h24, r => r.price_change_percentage_24h
  | .d7, r => r.price_change_percentage_7d

/-- `LOG10(CASE WHEN v > 1 THEN v ELSE 1 END)`. -/
noncomputable def logCap (q : ℚ) : ℝ :=
  Real.logb 10 (if 1 < q then (q : ℝ) else 1)

/-- The composite movement score of a row for a timeframe:
percentage change × log10(market cap) × log10(volume)
(`movement_score_24h` / `movement_score_7d` of the CTE). -/
noncomputable def movementScore (t : MoverTimeframe) (r : BMarketRow) : ℝ :=
  (pctOf t r : ℝ) * logCap r.market_cap * logCap r.total_volume

/-- The (timeframe, gainer/loser) partition: metrics rows with an
absolute percentage change of at least 5 for that timeframe, split on
`pct > 0` (`movement_type`). -/
def bucket (db : BaseDB) (t : MoverTimeframe) (gainer : Bool) :
    List (BMarketRow × TokenInfoRow) :=
  (baseNativeMetrics db).filter (fun rt =>
    decide (5 ≤ |pctOf t rt.1|) && (decide (0 < pctOf t rt.1) == gainer))

/-- `ROW_NUMBER() OVER (PARTITION BY movement_type ORDER BY
ABS(movement_score) DESC)`: with distinct keys this equals one plus the
number of bucket rows with strictly larger absolute score (SQL breaks
ties arbitrarily; this count form agrees with every tie-break on the
strict comparisons the claims are about). -/
noncomputable def rank (db : BaseDB) (t : MoverTimeframe) (gainer : Bool)
    (rt : BMarketRow × TokenInfoRow) : Nat :=
  1 + (bucket db t gainer).countP
    (fun b => decide (|movementScore t rt.1| < |movementScore t b.1|))

/-- The final selection: rank ≤ 3 in a 24h bucket, rank 1 in a 7d
bucket. -/
def selected (db : BaseDB) (t : MoverTimeframe) (gainer : Bool)
    (rt : BMarketRow × TokenInfoRow) : Prop :=
  rt ∈ bucket db t gainer ∧
    match t with
    | .h24 => rank db t gainer rt ≤ 3
    | .d7 => rank db t gainer rt = 1

theorem countP_le_of_imp {α : Type} (p q : α → Bool) :
    ∀ l : List α, (∀ a ∈ l, p a = true → q a = true) →
      l.countP p ≤ l.countP q := by
  intro l
  induction l with
  | nil => intro _; simp
  | cons a l ih =>
    intro h
    simp only [List.countP_cons]
    have hl := ih (fun x hx => h x (List.mem_cons_of_mem a hx))
    by_cases hpa : p a = true
    · rw [hpa, h a (List.mem_cons_self a l) hpa]
      omega
    · have hfa : p a = false := Bool.eq_false_iff.mpr hpa
      rw [hfa]
      simp only [Bool.false_eq_true, if_false]
      exact le_trans hl (Nat.le_add_right _ _)

theorem countP_lt_of_witness {α : Type} (p q : α → Bool) :
    ∀ l : List α, (∀ a ∈ l, p a = true → q a = true) →
      ∀ x ∈ l, q x = true → p x = false →
      l.countP p < l.countP q := by
  intro l
  induction l with
  | nil => intro _ x hx; cases hx
  | cons a l ih =>
    intro h x hx hqx hpx
    simp only [List.countP_cons]
    have hl := countP_le_of_imp p q l (fun b hb => h b (List.mem_cons_of_mem a hb))
    rcases List.mem_cons.mp hx with rfl | hmem
    · rw [hpx, hqx]
      simp only [Bool.false_eq_true, if_false, eq_self_iff_true, if_true]
      omega
    · have hlt := ih (fun b hb => h b (List.mem_cons_of_mem a hb)) x hmem hqx hpx
      by_cases hpa : p a = true
      · rw [hpa, h a (List.mem_cons_self a l) hpa]
        omega
      · have hfa : p a = false := Bool.eq_false_iff.mpr hpa
        rw [hfa]
        simp only [Bool.false_eq_true, if_false]
        omega

/-- C8 (amended): within a (timeframe, gainer/loser) bucket of the
notable-movers query — whose rows additionally satisfy the query's
minimum-absolute-percentage-change filter of 5, on top of the $5M market
cap and $300k volume floors — ranking is by absolute composite movement
score, not raw percentage change: the row with strictly larger absolute
score always receives the strictly smaller rank. -/
theorem getNotableMovers_rank_by_score (db : BaseDB) (t : MoverTimeframe)
    (g : Bool) (x y : BMarketRow × TokenInfoRow)
    (hx : x ∈ bucket db t g) (hy : y ∈ bucket db t g)
    (hs : |movementScore t y.1| < |movementScore t x.1|) :
    rank db t g x < rank db t g y := by
  unfold rank
  apply Nat.add_lt_add_left
  apply countP_lt_of_witness _ _ _ ?himp x hx ?hqx ?hpx
  case himp =>
    intro a _ ha
    rw [decide_eq_true_eq] at ha ⊢
    exact lt_trans hs ha
  case hqx => exact decide_eq_true hs
  case hpx => exact decide_eq_false (lt_irrefl _)

end BaseMarketMovers
namespace BaseMarketMovers

theorem logb_ten_pow (n : ℕ) : Real.logb 10 ((10 : ℝ) ^ n) = n := by
  rw [Real.logb_pow, Real.logb_self_eq_one (by norm_num)]
  ring

theorem logCap_eq_of_pow {q : ℚ} {n : ℕ} (h1 : (1 : ℚ) < q)
    (hq : (q : ℝ) = (10 : ℝ) ^ n) : logCap q = n := by
  rw [logCap, if_pos h1, hq, logb_ten_pow]

/-- A `base_market_data` row with the given id, market cap, volume and
24h percentage change (7d change 0, price 1, timestamp 100). -/
def mkBRow (id : String) (mc vol pct24 : ℚ) : BMarketRow :=
  { id := id
    current_price := 1
    market_cap := mc
    total_volume := vol
    price_change_percentage_24h := pct24
    price_change_percentage_7d := 0
    timestamp := 100 }

/-- Huge asset: market cap 10^12, volume 10^10, 24h change 4.9 % —
above both liquidity floors with an enormous composite score, but below
the 5 % change filter. -/
def rowBig : BMarketRow := mkBRow "big" 1000000000000 10000000000 (49 / 10)

/-- Small asset: market cap 10^7, volume 10^6, 24h change 6 %. -/
def rowSmall : BMarketRow := mkBRow "small" 10000000 1000000 6

/-- Token-info row for `rowBig` on platform base. -/
def tiBig : TokenInfoRow := ⟨"big", "Big", "BIG", some "base"⟩

/-- Token-info row for `rowSmall` on platform base. -/
def tiSmall : TokenInfoRow := ⟨"small", "Small", "SML", some "base"⟩

/-- The two-asset store for the C8 counterexample. -/
def dbC8 : BaseDB := ⟨[rowBig, rowSmall], [tiBig, tiSmall]⟩

theorem movementScore_rowBig : movementScore .h24 rowBig = 49 / 10 * 12 * 10 := by
  rw [movementScore,
    show pctOf .h24 rowBig = 49 / 10 from rfl,
    show rowBig.market_cap = 1000000000000 from rfl,
    show rowBig.total_volume = 10000000000 from rfl,
    logCap_eq_of_pow (n := 12) (by norm_num) (by norm_num),
    logCap_eq_of_pow (n := 10) (by norm_num) (by norm_num)]
  norm_num

theorem movementScore_rowSmall : movementScore .h24 rowSmall = 6 * 7 * 6 := by
  rw [movementScore,
    show pctOf .h24 rowSmall = 6 from rfl,
    show rowSmall.market_cap = 10000000 from rfl,
    show rowSmall.total_volume = 1000000 from rfl,
    logCap_eq_of_pow (n := 7) (by norm_num) (by norm_num),
    logCap_eq_of_pow (n := 6) (by norm_num) (by norm_num)]
  norm_num

theorem bucket_dbC8 : bucket dbC8 .h24 true = [(rowSmall, tiSmall)] := by
  norm_num [bucket, baseNativeMetrics, maxTs, dbC8, rowBig, rowSmall, tiBig,
    tiSmall, mkBRow, pctOf, List.filter, abs]

/-- C8 (counterexample): ranking eligibility is not just the latest
snapshot plus the $5M/$300k liquidity floors.  `rowBig` satisfies all
of those, is a would-be gainer, and has a strictly larger absolute
composite movement score than `rowSmall` (4.9×12×10 = 588 versus
6×7×6 = 252), yet it is excluded from the 24h gainer bucket entirely by
the query's additional `ABS(pct) >= 5` filter, while `rowSmall` is
ranked first — so the asset with the larger absolute composite score
does not rank ahead. -/
theorem getNotableMovers_floors_not_sufficient :
    maxTs dbC8 = some rowBig.timestamp ∧
    (5000000 : ℚ) ≤ rowBig.market_cap ∧
    (300000 : ℚ) ≤ rowBig.total_volume ∧
    0 < pctOf .h24 rowBig ∧
    |movementScore .h24 rowSmall| < |movementScore .h24 rowBig| ∧
    (∀ t : TokenInfoRow, (rowBig, t) ∉ bucket dbC8 .h24 true) ∧
    (rowSmall, tiSmall) ∈ bucket dbC8 .h24 true ∧
    rank dbC8 .h24 true (rowSmall, tiSmall) = 1 ∧
    selected dbC8 .h24 true (rowSmall, tiSmall) := by
  have hrank : rank dbC8 .h24 true (rowSmall, tiSmall) = 1 := by
    rw [rank, bucket_dbC8]
    simp only [List.countP_cons, List.countP_nil]
    rw [decide_eq_false (lt_irrefl _)]
    rfl
  refine ⟨?_, ?_, ?_, ?_, ?_, ?_, ?_, hrank, ?_⟩
  · norm_num [maxTs, dbC8, rowBig, rowSmall, mkBRow]
  · norm_num [rowBig, mkBRow]
  · norm_num [rowBig, mkBRow]
  · norm_num [pctOf, rowBig, mkBRow]
  · rw [movementScore_rowBig, movementScore_rowSmall]
    rw [abs_of_nonneg (by norm_num : (0 : ℝ) ≤ 6 * 7 * 6),
      abs_of_nonneg (by norm_num : (0 : ℝ) ≤ 49 / 10 * 12 * 10)]
    norm_num
  · intro t
    rw [bucket_dbC8]
    simp [rowBig, rowSmall, mkBRow]
  · rw [bucket_dbC8]
    simp
  · refine ⟨by rw [bucket_dbC8]; simp, ?_⟩
    show rank dbC8 .h24 true (rowSmall, tiSmall) ≤ 3
    omega

end BaseMarketMovers
namespace BaseMarketMovers

/-- Witness asset with market cap 10^10, volume 10^8, 24h change 10 %. -/
def rowW1 : BMarketRow := mkBRow "w1" 10000000000 100000000 10

/-- Witness asset with market cap 10^7, volume 10^6, 24h change 6 %. -/
def rowW2 : BMarketRow := mkBRow "w2" 10000000 1000000 6

/-- Token-info row for `rowW1` on platform base. -/
def tiW1 : TokenInfoRow := ⟨"w1", "W One", "W1", some "base"⟩

/-- Token-info row for `rowW2` on platform base. -/
def tiW2 : TokenInfoRow := ⟨"w2", "W Two", "W2", some "base"⟩

/-- The two-asset store for the C8 witness. -/
def dbC8w : BaseDB := ⟨[rowW1, rowW2], [tiW1, tiW2]⟩

/-- C8 (witness): in `dbC8w` both assets sit in the 24h gainer bucket,
`rowW1` has the larger absolute composite score (10×10×8 = 800 versus
6×7×6 = 252), and it receives the strictly smaller rank. -/
theorem getNotableMovers_rank_by_score_witness :
    ((rowW1, tiW1) ∈ bucket dbC8w .h24 true) ∧
    ((rowW2, tiW2) ∈ bucket dbC8w .h24 true) ∧
    |movementScore .h24 rowW2| < |movementScore .h24 rowW1| ∧
    rank dbC8w .h24 true (rowW1, tiW1) < rank dbC8w .h24 true (rowW2, tiW2) := by
  have hb : bucket dbC8w .h24 true = [(rowW1, tiW1), (rowW2, tiW2)] := by
    norm_num [bucket, baseNativeMetrics, maxTs, dbC8w, rowW1, rowW2, tiW1, tiW2,
      mkBRow, pctOf, List.filter, abs]
  have hx : (rowW1, tiW1) ∈ bucket dbC8w .h24 true := by rw [hb]; simp
  have hy : (rowW2, tiW2) ∈ bucket dbC8w .h24 true := by rw [hb]; simp
  have h1 : movementScore .h24 rowW1 = 10 * 10 * 8 := by
    rw [movementScore,
      show pctOf .h24 rowW1 = 10 from rfl,
      show rowW1.market_cap = 10000000000 from rfl,
      show rowW1.total_volume = 100000000 from rfl,
      logCap_eq_of_pow (n := 10) (by norm_num) (by norm_num),
      logCap_eq_of_pow (n := 8) (by norm_num) (by norm_num)]
    norm_num
  have h2 : movementScore .h24 rowW2 = 6 * 7 * 6 := by
    rw [movementScore,
      show pctOf .h24 rowW2 = 6 from rfl,
      show rowW2.market_cap = 10000000 from rfl,
      show rowW2.total_volume = 1000000 from rfl,
      logCap_eq_of_pow (n := 7) (by norm_num) (by norm_num),
      logCap_eq_of_pow (n := 6) (by norm_num) (by norm_num)]
    norm_num
  have hs : |movementScore .h24 rowW2| < |movementScore .h24 rowW1| := by
    rw [h1, h2,
      abs_of_nonneg (by norm_num : (0 : ℝ) ≤ 6 * 7 * 6),
      abs_of_nonneg (by norm_num : (0 : ℝ) ≤ 10 * 10 * 8)]
    norm_num
  exact ⟨hx, hy, hs, getNotableMovers_rank_by_score dbC8w .h24 true _ _ hx hy hs⟩

end BaseMarketMovers
